import Mathlib

/-
Verification development for the collab-editor real-time synchronization
server (server/socket-server.js together with the AIService class from
server/ai-service.js).  The JavaScript state (four module-level Map objects
plus the AIService rateLimits Map) is embedded as association lists with
unique-key semantics: insert replaces the binding of an existing key in
place (JS Map.set keeps the position of an existing key and appends a new
one) and erase drops every binding of the key (a JS Map holds at most one).
Socket.io rooms are mirrored by the documentUsers map exactly as the code
itself mirrors them, and the room a socket currently occupies (socket.rooms
minus the private self-room) is tracked in socketRooms.  Outbound traffic
is modelled as a list of Emit values; io.to(room).emit reaches every member
of the room including the sender, socket.to(room).emit reaches every member
except the sender, socket.emit reaches the one socket.
-/

namespace Codex

/-- Association-list map with JS Map semantics. -/
abbrev Map (K V : Type) := List (K × V)

namespace Map

variable {K V : Type} [DecidableEq K]

/-- Lookup of the first (and, for well-formed maps, only) binding of a key. -/
def lookup : Map K V → K → Option V
  | [], _ => none
  | (k', v) :: t, k => if k' = k then some v else lookup t k

/-- JS Map.set: replace the binding of an existing key in place, otherwise
append the new binding at the end. -/
def insert : Map K V → K → V → Map K V
  | [], k, v => [(k, v)]
  | (k', v') :: t, k, v => if k' = k then (k, v) :: t else (k', v') :: insert t k v

/-- JS Map.delete: remove the binding of the key (a JS Map holds at most
one binding per key; the model drops every one). -/
def erase : Map K V → K → Map K V
  | [], _ => []
  | (k', v) :: t, k => if k' = k then erase t k else (k', v) :: erase t k

end Map

/-- Cached document record, documentCache values in socket-server.js.
Timestamps are abstract Nat ticks. -/
structure DocState where
  content : String
  lastModified : Nat
  version : Nat
deriving DecidableEq, Repr

/-- userMetadata values in socket-server.js. -/
structure UserMeta where
  username : String
  color : String
  documentId : String
deriving DecidableEq, Repr

/-- Rate-limit bucket, rateLimits values in the AIService class. -/
structure Bucket where
  count : Nat
  resetTime : Nat
deriving DecidableEq, Repr

/-- The module-level mutable state of socket-server.js plus the AIService
rateLimits map.  documentLocks, workspaceCache and activeFiles are declared
in the source but never read or written by any handler, so they are not
modelled. -/
structure ServerState where
  documentCache : Map String DocState
  documentUsers : Map String (List Nat)
  userMetadata : Map Nat UserMeta
  socketRooms : Map Nat String
  rateLimits : Map Nat Bucket
deriving DecidableEq, Repr

/-- Server-to-client events that the modelled handlers emit. -/
inductive OutEvent
  | documentState (content : String) (version : Nat)
  | receiveChanges (content : String) (version : Nat) (fromId : Nat)
  | errorMsg (message : String)
  | userCountUpdate (count : Nat)
  | usersUpdate (users : List (Nat × String × String))
  | cursorUpdate (socketId : Nat) (username : String) (color : String)
      (position : Nat) (selection : Nat)
  | cursorRemove (socketId : Nat)
  | aiChunk (chunk : String)
  | aiComplete
  | aiError (message : String)
deriving DecidableEq, Repr

/-- One outbound emit operation with its socket.io targeting mode. -/
inductive Emit
  | toSocket (sid : Nat) (ev : OutEvent)
  | toRoom (docId : String) (ev : OutEvent)
  | toRoomExcept (docId : String) (sender : Nat) (ev : OutEvent)
deriving DecidableEq, Repr

/-- Members of a document room (the JS Set in documentUsers, kept in sync
with socket.io room membership by the join, leave and disconnect handlers). -/
def membersOf (s : ServerState) (docId : String) : List Nat :=
  (Map.lookup s.documentUsers docId).getD []

/-- Which sockets a given emit operation reaches, resolved against room
membership: io.to includes the sender, socket.to excludes it. -/
def emitTargets (s : ServerState) : Emit → List Nat
  | Emit.toSocket sid _ => [sid]
  | Emit.toRoom docId _ => membersOf s docId
  | Emit.toRoomExcept docId sender _ => (membersOf s docId).filter (fun m => m ≠ sender)

/-- JS Set.add: no duplicate is created; a new element goes at the end. -/
def setAdd (us : List Nat) (x : Nat) : List Nat :=
  if x ∈ us then us else us ++ [x]

/-- JS Set.delete: the element is removed.  A JS Set never holds an element
twice, so removing every occurrence from the modelling list is exact. -/
def setDelete (us : List Nat) (x : Nat) : List Nat :=
  us.filter (fun y => y ≠ x)

/-- getDocumentState of socket-server.js.  The external documents store is
a map from document id to persisted content; a missing id models the
single-row fetch returning an error.  On a cache hit the cached record is
returned unchanged; on a miss the persisted content is cached with version
1, and on store failure nothing is cached and null is returned. -/
def getDocumentState (store : Map String String) (now : Nat) (s : ServerState)
    (docId : String) : Option DocState × ServerState :=
  match Map.lookup s.documentCache docId with
  | some st => (some st, s)
  | none =>
    match Map.lookup store docId with
    | none => (none, s)
    | some content =>
      let st : DocState := { content := content, lastModified := now, version := 1 }
      (some st, { s with documentCache := Map.insert s.documentCache docId st })

/-- updateDocumentState of socket-server.js.  The JS function mutates the
cached record in place (new content, version + 1, fresh timestamp) and
returns a boolean; the caller keeps reading the mutated record through its
alias, so the model returns the updated record alongside the new state.
The fire-and-forget Supabase persistence write touches no server state and
is therefore not modelled. -/
def updateDocumentState (now : Nat) (s : ServerState) (docId : String)
    (newContent : String) : Option DocState × ServerState :=
  match Map.lookup s.documentCache docId with
  | none => (none, s)
  | some st =>
    let st' : DocState := { content := newContent, lastModified := now, version := st.version + 1 }
    (some st', { s with documentCache := Map.insert s.documentCache docId st' })

/-- Tail of the send-changes handler after the cached state is known to
exist: update the state and broadcast the full server state to the room. -/
def sendChangesApply (now : Nat) (s : ServerState) (sid : Nat) (docId : String)
    (content : String) : ServerState × List Emit :=
  let r := updateDocumentState now s docId content
  match r.1 with
  | none => (r.2, [])
  | some st =>
    (r.2, [Emit.toRoom docId (OutEvent.receiveChanges st.content st.version sid)])

/-- The send-changes handler: ensure cached state exists (hydrating on a
miss), signal a document-not-found error to the submitter alone when
hydration fails, otherwise update and broadcast. -/
def sendChanges (store : Map String String) (now : Nat) (s : ServerState)
    (sid : Nat) (docId : String) (content : String) : ServerState × List Emit :=
  match Map.lookup s.documentCache docId with
  | some _ => sendChangesApply now s sid docId content
  | none =>
    let r := getDocumentState store now s docId
    match r.1 with
    | none => (r.2, [Emit.toSocket sid (OutEvent.errorMsg "Document not found")])
    | some _ => sendChangesApply now r.2 sid docId content

/-- The request-sync handler: fetch (possibly hydrating) the state and send
it back to the caller alone; on hydration failure it silently does nothing. -/
def requestSync (store : Map String String) (now : Nat) (s : ServerState)
    (sid : Nat) (docId : String) : ServerState × List Emit :=
  let r := getDocumentState store now s docId
  match r.1 with
  | some st => (r.2, [Emit.toSocket sid (OutEvent.documentState st.content st.version)])
  | none => (r.2, [])

/-- The member-list payload built by the handlers: the sockets of the room
that have registered metadata, with their username and color. -/
def userList (umeta : Map Nat UserMeta) (users : List Nat) : List (Nat × String × String) :=
  users.filterMap (fun u => (Map.lookup umeta u).map (fun m => (u, m.username, m.color)))

/-- The set-user-identity handler: record the metadata and broadcast the
fresh member list of the announced document to its room. -/
def setUserIdentity (s : ServerState) (sid : Nat) (docId : String)
    (username : String) (color : String) : ServerState × List Emit :=
  let s' := { s with userMetadata := Map.insert s.userMetadata sid ⟨username, color, docId⟩ }
  (s', [Emit.toRoom docId (OutEvent.usersUpdate (userList s'.userMetadata (membersOf s' docId)))])

/-- The cursor-move handler: relay the cursor payload to the other members
of the room when the sender has registered metadata, otherwise drop the
event.  Position and selection are opaque payload values.  Nothing is
stored. -/
def cursorMove (s : ServerState) (sid : Nat) (docId : String)
    (position : Nat) (selection : Nat) : ServerState × List Emit :=
  match Map.lookup s.userMetadata sid with
  | none => (s, [])
  | some meta =>
    (s, [Emit.toRoomExcept docId sid
      (OutEvent.cursorUpdate sid meta.username meta.color position selection)])

/-- Implicit leave at the start of the join-document handler: the socket
leaves its previous room (socket.rooms minus the private self-room holds at
most one), is removed from that room in documentUsers, and when the room
becomes empty the room entry and the cached document state are deleted. -/
def implicitLeave (s : ServerState) (sid : Nat) : ServerState :=
  match Map.lookup s.socketRooms sid with
  | none => s
  | some r =>
    match Map.lookup s.documentUsers r with
    | none => s
    | some us =>
      let us' := setDelete us sid
      if us' = [] then
        { s with documentUsers := Map.erase s.documentUsers r,
                 documentCache := Map.erase s.documentCache r }
      else
        { s with documentUsers := Map.insert s.documentUsers r us' }

/-- The join-document handler: implicit leave of the previous room, join of
the new room (creating its member set on demand), load of the document
state (sent to the joining socket alone when available), then a user-count
broadcast to the room. -/
def joinDocument (store : Map String String) (now : Nat) (s : ServerState)
    (sid : Nat) (docId : String) : ServerState × List Emit :=
  let s1 := implicitLeave s sid
  let s2 := { s1 with
    socketRooms := Map.insert s1.socketRooms sid docId,
    documentUsers := Map.insert s1.documentUsers docId
      (setAdd ((Map.lookup s1.documentUsers docId).getD []) sid) }
  let r := getDocumentState store now s2 docId
  let stateEmits := match r.1 with
    | some st => [Emit.toSocket sid (OutEvent.documentState st.content st.version)]
    | none => []
  (r.2, stateEmits ++ [Emit.toRoom docId (OutEvent.userCountUpdate (membersOf r.2 docId).length)])

/-- The leave-document handler: leave the socket.io room; when the room is
tracked, remove the socket from its member set, broadcast user count,
member list and a cursor-remove notice, and when the member set became
empty delete the room entry and the cached document state; finally drop the
metadata of the socket. -/
def leaveDocument (s : ServerState) (sid : Nat) (docId : String) : ServerState × List Emit :=
  let sr := if Map.lookup s.socketRooms sid = some docId then Map.erase s.socketRooms sid
            else s.socketRooms
  match Map.lookup s.documentUsers docId with
  | none => ({ s with socketRooms := sr, userMetadata := Map.erase s.userMetadata sid }, [])
  | some us =>
    let us' := setDelete us sid
    let emits := [Emit.toRoom docId (OutEvent.userCountUpdate us'.length),
                  Emit.toRoom docId (OutEvent.usersUpdate (userList s.userMetadata us')),
                  Emit.toRoom docId (OutEvent.cursorRemove sid)]
    if us' = [] then
      ({ s with socketRooms := sr,
                documentUsers := Map.erase s.documentUsers docId,
                documentCache := Map.erase s.documentCache docId,
                userMetadata := Map.erase s.userMetadata sid }, emits)
    else
      ({ s with socketRooms := sr,
                documentUsers := Map.insert s.documentUsers docId us',
                userMetadata := Map.erase s.userMetadata sid }, emits)

/-- Membership map after the disconnect forEach: every room containing the
socket loses it, and a room whose member set becomes empty is deleted. -/
def removeFromRooms (sid : Nat) : Map String (List Nat) → Map String (List Nat)
  | [] => []
  | (d, us) :: rest =>
    if sid ∈ us then
      (if setDelete us sid = [] then removeFromRooms sid rest
       else (d, setDelete us sid) :: removeFromRooms sid rest)
    else (d, us) :: removeFromRooms sid rest

/-- Rooms that the disconnect forEach empties, whose cached document state
it deletes. -/
def emptiedRooms (sid : Nat) : Map String (List Nat) → List String
  | [] => []
  | (d, us) :: rest =>
    if sid ∈ us then
      (if setDelete us sid = [] then d :: emptiedRooms sid rest else emptiedRooms sid rest)
    else emptiedRooms sid rest

/-- Emits of the disconnect forEach, in map iteration order: for every room
that contained the socket, a user-count update and a member list, plus a
cursor-remove notice when the socket had registered metadata. -/
def disconnectEmits (s : ServerState) (sid : Nat) : List Emit :=
  (s.documentUsers.map (fun e =>
    if sid ∈ e.2 then
      [Emit.toRoom e.1 (OutEvent.userCountUpdate (setDelete e.2 sid).length),
       Emit.toRoom e.1 (OutEvent.usersUpdate (userList s.userMetadata (setDelete e.2 sid)))] ++
      (if (Map.lookup s.userMetadata sid).isSome then [Emit.toRoom e.1 (OutEvent.cursorRemove sid)]
       else [])
    else [])).flatten

/-- The disconnect handler: remove the socket from every room (deleting a
room and its cached document state when it becomes empty), emit the
corresponding notifications, delete the metadata of the socket, and drop
the socket.io room membership.  The rateLimits map of the AIService is not
touched anywhere in the handler. -/
def disconnect (s : ServerState) (sid : Nat) : ServerState × List Emit :=
  ({ s with documentUsers := removeFromRooms sid s.documentUsers,
            documentCache := (emptiedRooms sid s.documentUsers).foldl Map.erase s.documentCache,
            userMetadata := Map.erase s.userMetadata sid,
            socketRooms := Map.erase s.socketRooms sid },
   disconnectEmits s sid)

/-- MAX_REQUESTS_PER_MINUTE of the AIService. -/
def MAX_REQUESTS_PER_MINUTE : Nat := 10

/-- AIService.checkRateLimit: absent or expired bucket starts a fresh
window with count 1; a full bucket inside the window refuses and changes
nothing; otherwise the count is incremented.  Times are milliseconds. -/
def checkRateLimit (now : Nat) (rl : Map Nat Bucket) (userId : Nat) : Bool × Map Nat Bucket :=
  match Map.lookup rl userId with
  | none => (true, Map.insert rl userId ⟨1, now + 60000⟩)
  | some b =>
    if now > b.resetTime then (true, Map.insert rl userId ⟨1, now + 60000⟩)
    else if b.count ≥ MAX_REQUESTS_PER_MINUTE then (false, rl)
    else (true, Map.insert rl userId ⟨b.count + 1, b.resetTime⟩)

/-- AIService.cleanupRateLimits: drop every bucket whose window has
expired. -/
def cleanupRateLimits (now : Nat) (rl : Map Nat Bucket) : Map Nat Bucket :=
  rl.filter (fun e => ¬ now > e.2.resetTime)

/-- AIService.generateCodeStream: consult the rate limiter first and fail
with the rate-limit error doing no generation work when it refuses;
otherwise produce the chunk stream of the backing generative service, which
the model receives as a parameter (the prompt construction feeds only the
external backend and affects no server state). -/
def generateCodeStream (now : Nat) (rl : Map Nat Bucket) (userId : Nat)
    (backendChunks : List String) : Except String (List String) × Map Nat Bucket :=
  match checkRateLimit now rl userId with
  | (true, rl') => (Except.ok backendChunks, rl')
  | (false, rl') => (Except.error "Rate limit exceeded. Please try again in a minute.", rl')

/-- The ai-generate handler (with the AI service configured): refuse with
an authentication error before doing anything when the socket has no
registered metadata; otherwise run the rate-limited stream, emitting every
chunk to the requesting socket followed by a completion signal, or the
error message when the stream fails. -/
def aiGenerate (backendChunks : List String) (now : Nat) (s : ServerState)
    (sid : Nat) : ServerState × List Emit :=
  match Map.lookup s.userMetadata sid with
  | none => (s, [Emit.toSocket sid (OutEvent.aiError "User not authenticated")])
  | some _ =>
    let r := generateCodeStream now s.rateLimits sid backendChunks
    ({ s with rateLimits := r.2 },
     match r.1 with
     | Except.ok chunks =>
       chunks.map (fun c => Emit.toSocket sid (OutEvent.aiChunk c)) ++
         [Emit.toSocket sid OutEvent.aiComplete]
     | Except.error msg => [Emit.toSocket sid (OutEvent.aiError msg)])

/-- Emit trace of the streaming loop inside the ai-generate handler when
the connection disconnects after the first disconnectAfter chunks have been
consumed.  The loop body is exactly one socket.emit per chunk followed by
the completion signal; it contains no check of the connection state and no
cancellation of the generator, so the trace does not depend on the
disconnect point at all. -/
def aiStreamEmitsWithDisconnect (sid : Nat) (chunks : List String)
    (disconnectAfter : Nat) : List Emit :=
  chunks.map (fun c => Emit.toSocket sid (OutEvent.aiChunk c)) ++
    [Emit.toSocket sid OutEvent.aiComplete]

/-- Inbound events dispatched by the connection gateway, restricted to the
handlers that touch the modelled state. -/
inductive InEvent
  | joinDocument (sid : Nat) (docId : String)
  | leaveDocument (sid : Nat) (docId : String)
  | sendChanges (sid : Nat) (docId : String) (content : String)
  | requestSync (sid : Nat) (docId : String)
  | setUserIdentity (sid : Nat) (docId : String) (username : String) (color : String)
  | cursorMove (sid : Nat) (docId : String) (position : Nat) (selection : Nat)
  | aiGenerate (sid : Nat) (chunks : List String)
  | disconnect (sid : Nat)

/-- One step of the connection gateway: dispatch an inbound event to its
handler. -/
def step (store : Map String String) (now : Nat) (s : ServerState) :
    InEvent → ServerState × List Emit
  | InEvent.joinDocument sid d => joinDocument store now s sid d
  | InEvent.leaveDocument sid d => leaveDocument s sid d
  | InEvent.sendChanges sid d c => sendChanges store now s sid d c
  | InEvent.requestSync sid d => requestSync store now s sid d
  | InEvent.setUserIdentity sid d u c => setUserIdentity s sid d u c
  | InEvent.cursorMove sid d p sel => cursorMove s sid d p sel
  | InEvent.aiGenerate sid chunks => aiGenerate chunks now s sid
  | InEvent.disconnect sid => disconnect s sid

/-- Sequential processing of a list of timed send-changes submissions
(time, submitting socket, content) for one document, in arrival order. -/
def processSendChanges (store : Map String String) (s : ServerState) (docId : String) :
    List (Nat × Nat × String) → ServerState
  | [] => s
  | (now, sid, content) :: rest =>
    processSendChanges store (sendChanges store now s sid docId content).1 docId rest

/-- Sequential rate-limit checks of one user at the given times, collecting
the verdicts and threading the bucket map. -/
def runRequests (userId : Nat) : Map Nat Bucket → List Nat → List Bool × Map Nat Bucket
  | rl, [] => ([], rl)
  | rl, t :: ts =>
    let r1 := checkRateLimit t rl userId
    let r2 := runRequests userId r1.2 ts
    (r1.1 :: r2.1, r2.2)

/-- Invariant of the room registry: every room entry present in
documentUsers has a non-empty member set. -/
def RoomsNonempty (s : ServerState) : Prop :=
  ∀ d us, (d, us) ∈ s.documentUsers → us ≠ []

/-- Coupling of room deletion and cache eviction across one step: whenever
a step deletes a room entry, the cached document state of that document is
gone after the step as well. -/
def roomEvictionCoupled (s s' : ServerState) : Prop :=
  ∀ d, Map.lookup s.documentUsers d ≠ none →
    Map.lookup s'.documentUsers d = none → Map.lookup s'.documentCache d = none

/-- Server state with no cached documents, rooms, identities or buckets. -/
def emptyState : ServerState :=
  { documentCache := [], documentUsers := [], userMetadata := [],
    socketRooms := [], rateLimits := [] }

/-- Concrete state for the cursor relay counterexample: sockets 1 and 2 are
members of the room of document d, neither has registered an identity. -/
def cursorCexState : ServerState :=
  { documentCache := [], documentUsers := [("d", [1, 2])], userMetadata := [],
    socketRooms := [], rateLimits := [] }

/-- Concrete state for the disconnect counterexample: socket 1 is the only
member of the room of document d, has an identity and holds a rate-limit
bucket with three used requests. -/
def disconnectCexState : ServerState :=
  { documentCache := [("d", ⟨"x", 0, 3⟩)],
    documentUsers := [("d", [1])],
    userMetadata := [(1, ⟨"alice", "red", "d"⟩)],
    socketRooms := [(1, "d")],
    rateLimits := [(1, ⟨3, 99⟩)] }

/-- Server state used to instantiate witnesses: document d is cached at
version 1, sockets 7 and 8 are in its room, socket 7 has an identity. -/
def demoState : ServerState :=
  { documentCache := [("d", ⟨"", 0, 1⟩)],
    documentUsers := [("d", [7, 8])],
    userMetadata := [(7, ⟨"alice", "red", "d"⟩)],
    socketRooms := [(7, "d"), (8, "d")],
    rateLimits := [] }

namespace Map

variable {K V : Type} [DecidableEq K]

theorem lookup_insert_self (m : Map K V) (k : K) (v : V) :
    lookup (insert m k v) k = some v := by
  induction m with
  | nil => simp [insert, lookup]
  | cons e t ih =>
    obtain ⟨k', v'⟩ := e
    by_cases h : k' = k
    · simp [insert, h, lookup]
    · simp [insert, h, lookup, ih]

theorem lookup_insert_ne (m : Map K V) {k k' : K} (v : V) (h : k' ≠ k) :
    lookup (insert m k v) k' = lookup m k' := by
  induction m with
  | nil => simp [insert, lookup, Ne.symm h]
  | cons e t ih =>
    obtain ⟨k1, v1⟩ := e
    by_cases h1 : k1 = k
    · subst h1
      simp [insert, lookup, Ne.symm h]
    · simp only [insert, h1, if_false, lookup]
      by_cases h2 : k1 = k'
      · simp [h2]
      · simp [h2, ih]

theorem lookup_erase_self (m : Map K V) (k : K) : lookup (erase m k) k = none := by
  induction m with
  | nil => simp [erase, lookup]
  | cons e t ih =>
    obtain ⟨k1, v1⟩ := e
    by_cases h : k1 = k
    · simpa [erase, h] using ih
    · simpa [erase, h, lookup] using ih

theorem lookup_erase_ne (m : Map K V) {k k' : K} (h : k' ≠ k) :
    lookup (erase m k) k' = lookup m k' := by
  induction m with
  | nil => simp [erase, lookup]
  | cons e t ih =>
    obtain ⟨k1, v1⟩ := e
    by_cases h1 : k1 = k
    · subst h1
      simp [erase, lookup, Ne.symm h, ih]
    · by_cases h2 : k1 = k'
      · simp [erase, h1, lookup, h2, h]
      · simp [erase, h1, lookup, h2, ih]

theorem lookup_erase_none (m : Map K V) (k : K) {k' : K}
    (h : lookup m k' = none) : lookup (erase m k) k' = none := by
  by_cases hk : k' = k
  · subst hk; exact lookup_erase_self m k'
  · rw [lookup_erase_ne m hk]; exact h

theorem mem_insert {m : Map K V} {k : K} {v : V} {e : K × V}
    (h : e ∈ insert m k v) : e ∈ m ∨ e = (k, v) := by
  induction m with
  | nil => simpa [insert] using h
  | cons e1 t ih =>
    obtain ⟨k1, v1⟩ := e1
    by_cases h1 : k1 = k
    · simp only [insert, h1, if_true] at h
      rcases List.mem_cons.mp h with h2 | h2
      · exact Or.inr h2
      · exact Or.inl (List.mem_cons_of_mem _ h2)
    · simp only [insert, h1, if_false] at h
      rcases List.mem_cons.mp h with h2 | h2
      · exact Or.inl (h2 ▸ List.mem_cons_self _ _)
      · rcases ih h2 with h3 | h3
        · exact Or.inl (List.mem_cons_of_mem _ h3)
        · exact Or.inr h3

theorem mem_of_mem_erase {m : Map K V} {k : K} {e : K × V}
    (h : e ∈ erase m k) : e ∈ m := by
  induction m with
  | nil => simpa [erase] using h
  | cons e1 t ih =>
    obtain ⟨k1, v1⟩ := e1
    by_cases h1 : k1 = k
    · simp only [erase, h1, if_true] at h
      exact List.mem_cons_of_mem _ (ih h)
    · simp only [erase, h1, if_false] at h
      rcases List.mem_cons.mp h with h2 | h2
      · exact h2 ▸ List.mem_cons_self _ _
      · exact List.mem_cons_of_mem _ (ih h2)

theorem lookup_mem {m : Map K V} {k : K} {v : V} (h : lookup m k = some v) :
    (k, v) ∈ m := by
  induction m with
  | nil => simp [lookup] at h
  | cons e t ih =>
    obtain ⟨k1, v1⟩ := e
    by_cases h1 : k1 = k
    · subst h1
      simp [lookup] at h
      subst h
      exact List.mem_cons_self _ _
    · simp only [lookup, h1, if_false] at h
      exact List.mem_cons_of_mem _ (ih h)

theorem lookup_eq_none_of_keys {m : Map K V} {k : K}
    (h : ∀ e ∈ m, e.1 ≠ k) : lookup m k = none := by
  induction m with
  | nil => simp [lookup]
  | cons e t ih =>
    obtain ⟨k1, v1⟩ := e
    have hk1 : k1 ≠ k := h (k1, v1) (List.mem_cons_self _ _)
    simp only [lookup, hk1, if_false]
    exact ih (fun e he => h e (List.mem_cons_of_mem _ he))

theorem lookup_foldl_erase_none (ks : List K) (m : Map K V) {k : K}
    (h : lookup m k = none) : lookup (ks.foldl erase m) k = none := by
  induction ks generalizing m with
  | nil => simpa using h
  | cons a ks ih => exact ih (erase m a) (lookup_erase_none m a h)

theorem lookup_foldl_erase (ks : List K) (m : Map K V) {k : K}
    (h : k ∈ ks) : lookup (ks.foldl erase m) k = none := by
  induction ks generalizing m with
  | nil => cases h
  | cons a ks ih =>
    rcases List.mem_cons.mp h with h1 | h1
    · subst h1
      exact lookup_foldl_erase_none ks (erase m k) (lookup_erase_self m k)
    · exact ih (erase m a) h1

end Map

/-- On a cache hit, send-changes overwrites the cached content wholesale,
increments the version, stamps the time, and broadcasts the full new state
to the room tagged with the submitting socket. -/
theorem sendChanges_cached {store : Map String String} {now : Nat} {s : ServerState}
    {sid : Nat} {docId : String} {c : String} {st : DocState}
    (h : Map.lookup s.documentCache docId = some st) :
    sendChanges store now s sid docId c =
      ({ s with documentCache :=
          Map.insert s.documentCache docId ⟨c, now, st.version + 1⟩ },
       [Emit.toRoom docId (OutEvent.receiveChanges c (st.version + 1) sid)]) := by
  simp [sendChanges, h, sendChangesApply, updateDocumentState]

/-- On a cache miss with the document present in the store, send-changes
hydrates at version 1 and then applies the update, broadcasting version 2. -/
theorem sendChanges_hydrated {store : Map String String} {now : Nat} {s : ServerState}
    {sid : Nat} {docId : String} {c c0 : String}
    (h1 : Map.lookup s.documentCache docId = none)
    (h2 : Map.lookup store docId = some c0) :
    sendChanges store now s sid docId c =
      ({ s with documentCache :=
          Map.insert (Map.insert s.documentCache docId ⟨c0, now, 1⟩) docId ⟨c, now, 2⟩ },
       [Emit.toRoom docId (OutEvent.receiveChanges c 2 sid)]) := by
  simp [sendChanges, getDocumentState, h1, h2, sendChangesApply, updateDocumentState,
    Map.lookup_insert_self]

/-- Send-changes never touches room membership. -/
theorem sendChanges_documentUsers (store : Map String String) (now : Nat)
    (s : ServerState) (sid : Nat) (docId : String) (c : String) :
    (sendChanges store now s sid docId c).1.documentUsers = s.documentUsers := by
  rcases h : Map.lookup s.documentCache docId with _ | st
  · rcases h2 : Map.lookup store docId with _ | c0
    · simp [sendChanges, getDocumentState, h, h2]
    · simp [sendChanges_hydrated h h2]
  · simp [sendChanges_cached h]

/-- C1: starting from a cached DocumentState of some initial version, any
sequence of send-changes events for that document processed in arrival
order leaves the cache at the initial version plus the number of events,
with the content equal to the content of the last submission, each update
overwriting the content wholesale. -/
theorem sendChanges_sequence_last_writer_wins
    (store : Map String String) (s : ServerState) (docId : String)
    (evs : List (Nat × Nat × String)) (st0 : DocState)
    (h : Map.lookup s.documentCache docId = some st0) :
    ∃ st, Map.lookup (processSendChanges store s docId evs).documentCache docId = some st ∧
      st.version = st0.version + evs.length ∧
      ∀ ev, evs.getLast? = some ev → st.content = ev.2.2 := by
  induction evs generalizing s st0 with
  | nil => exact ⟨st0, h, by simp, by simp⟩
  | cons ev rest ih =>
    obtain ⟨now, sid, c⟩ := ev
    have h1 : Map.lookup (sendChanges store now s sid docId c).1.documentCache docId
        = some ⟨c, now, st0.version + 1⟩ := by
      rw [sendChanges_cached h]
      exact Map.lookup_insert_self ..
    obtain ⟨st, hst, hv, hc⟩ := ih _ _ h1
    have hproc : processSendChanges store s docId ((now, sid, c) :: rest)
        = processSendChanges store (sendChanges store now s sid docId c).1 docId rest := rfl
    refine ⟨st, by rw [hproc]; exact hst, by simp [hv]; omega, ?_⟩
    intro lastEv hlast
    cases rest with
    | nil =>
      simp [List.getLast?] at hlast
      subst hlast
      have : st = ⟨c, now, st0.version + 1⟩ := by
        have := hst
        simp [processSendChanges] at this
        rw [h1] at this
        exact (Option.some.injEq _ _ ▸ this).symm
      simp [this]
    | cons ev2 rest2 =>
      exact hc lastEv (by rw [← hlast]; exact (List.getLast?_cons_cons ..).symm)

/-- C1 witness: two submissions to the cached document d of demoState take
the version from 1 to 3 and leave the content of the second submission. -/
theorem sendChanges_sequence_last_writer_wins_witness :
    Map.lookup demoState.documentCache "d" = some ⟨"", 0, 1⟩ ∧
    ∃ st, Map.lookup (processSendChanges [] demoState "d"
        [(1, 7, "hello"), (2, 8, "hello world")]).documentCache "d" = some st ∧
      st.version = 1 + 2 ∧
      ∀ ev, [(1, 7, "hello"), (2, 8, "hello world")].getLast? = some ev →
        st.content = ev.2.2 := by
  refine ⟨rfl, ?_⟩
  have h := sendChanges_sequence_last_writer_wins [] demoState "d"
    [(1, 7, "hello"), (2, 8, "hello world")] ⟨"", 0, 1⟩ rfl
  simpa using h

/-- C2: an accepted send-changes event (cached state exists or hydration
succeeds) emits exactly one receive-changes broadcast to the room of the
document, whose payload carries the post-update cached content, the
post-increment version and the submitting socket id; the broadcast reaches
every member of the room, the submitter included when it is a member. -/
theorem sendChanges_accepted_broadcast
    (store : Map String String) (now : Nat) (s : ServerState)
    (sid : Nat) (docId : String) (c : String)
    (h : (Map.lookup s.documentCache docId).isSome ∨ (Map.lookup store docId).isSome) :
    ∃ st, Map.lookup (sendChanges store now s sid docId c).1.documentCache docId = some st ∧
      st.content = c ∧
      (∀ st0, Map.lookup s.documentCache docId = some st0 → st.version = st0.version + 1) ∧
      (Map.lookup s.documentCache docId = none → st.version = 2) ∧
      (sendChanges store now s sid docId c).2 =
        [Emit.toRoom docId (OutEvent.receiveChanges st.content st.version sid)] ∧
      emitTargets (sendChanges store now s sid docId c).1
        (Emit.toRoom docId (OutEvent.receiveChanges st.content st.version sid))
        = membersOf s docId ∧
      (sid ∈ membersOf s docId →
        sid ∈ emitTargets (sendChanges store now s sid docId c).1
          (Emit.toRoom docId (OutEvent.receiveChanges st.content st.version sid))) := by
  have htargets : ∀ ev, emitTargets (sendChanges store now s sid docId c).1
      (Emit.toRoom docId ev) = membersOf s docId := by
    intro ev
    simp only [emitTargets, membersOf, sendChanges_documentUsers]
  rcases hc : Map.lookup s.documentCache docId with _ | st0
  · rcases hs : Map.lookup store docId with _ | c0
    · rw [hc, hs] at h
      simp at h
    · refine ⟨⟨c, now, 2⟩, ?_, rfl, ?_, ?_, ?_, ?_, ?_⟩
      · rw [sendChanges_hydrated hc hs]
        exact Map.lookup_insert_self ..
      · intro st0 h0
        simp at h0
      · intro _
        rfl
      · rw [sendChanges_hydrated hc hs]
      · exact htargets _
      · intro hmem
        rw [htargets _]
        exact hmem
  · refine ⟨⟨c, now, st0.version + 1⟩, ?_, rfl, ?_, ?_, ?_, ?_, ?_⟩
    · rw [sendChanges_cached hc]
      exact Map.lookup_insert_self ..
    · intro st1 h1
      cases h1
      rfl
    · intro h1
      simp at h1
    · rw [sendChanges_cached hc]
    · exact htargets _
    · intro hmem
      rw [htargets _]
      exact hmem

/-- C2 witness: submitter 7 sends content to the cached document d of
demoState; the single broadcast carries the new content at version 2 and
reaches both members of the room, 7 included. -/
theorem sendChanges_accepted_broadcast_witness :
    ((Map.lookup demoState.documentCache "d").isSome ∨
      (Map.lookup ([] : Map String String) "d").isSome) ∧
    ∃ st, Map.lookup (sendChanges [] 5 demoState 7 "d" "hi").1.documentCache "d" = some st ∧
      st.content = "hi" ∧
      (∀ st0, Map.lookup demoState.documentCache "d" = some st0 → st.version = st0.version + 1) ∧
      (Map.lookup demoState.documentCache "d" = none → st.version = 2) ∧
      (sendChanges [] 5 demoState 7 "d" "hi").2 =
        [Emit.toRoom "d" (OutEvent.receiveChanges st.content st.version 7)] ∧
      emitTargets (sendChanges [] 5 demoState 7 "d" "hi").1
        (Emit.toRoom "d" (OutEvent.receiveChanges st.content st.version 7))
        = membersOf demoState "d" ∧
      (7 ∈ membersOf demoState "d" →
        7 ∈ emitTargets (sendChanges [] 5 demoState 7 "d" "hi").1
          (Emit.toRoom "d" (OutEvent.receiveChanges st.content st.version 7))) :=
  ⟨Or.inl rfl, sendChanges_accepted_broadcast [] 5 demoState 7 "d" "hi" (Or.inl rfl)⟩

/-- Splitting a sequential run of rate-limit checks at any point threads
the bucket map through. -/
theorem runRequests_append (uid : Nat) (rl : Map Nat Bucket) (xs ys : List Nat) :
    runRequests uid rl (xs ++ ys) =
      ((runRequests uid rl xs).1 ++ (runRequests uid (runRequests uid rl xs).2 ys).1,
       (runRequests uid (runRequests uid rl xs).2 ys).2) := by
  induction xs generalizing rl with
  | nil => simp [runRequests]
  | cons t ts ih => simp [runRequests, ih]

/-- A run of checks inside the current window succeeds as long as the
ceiling is not reached, incrementing the bucket count once per check. -/
theorem runRequests_success (uid : Nat) (R : Nat) (ts : List Nat) :
    ∀ (rl : Map Nat Bucket) (k : Nat), Map.lookup rl uid = some ⟨k, R⟩ →
    (∀ t ∈ ts, t ≤ R) → 1 ≤ k → k + ts.length ≤ MAX_REQUESTS_PER_MINUTE →
    (runRequests uid rl ts).1 = List.replicate ts.length true ∧
    Map.lookup (runRequests uid rl ts).2 uid = some ⟨k + ts.length, R⟩ := by
  induction ts with
  | nil =>
    intro rl k h _ _ _
    exact ⟨rfl, by simpa [runRequests] using h⟩
  | cons t ts ih =>
    intro rl k h hts hk hlen
    have hnotgt : ¬ t > R := by
      have := hts t (List.mem_cons_self _ _)
      omega
    have hklt : ¬ k ≥ MAX_REQUESTS_PER_MINUTE := by
      simp only [MAX_REQUESTS_PER_MINUTE] at hlen ⊢
      simp only [List.length_cons] at hlen
      omega
    have hstep : checkRateLimit t rl uid = (true, Map.insert rl uid ⟨k + 1, R⟩) := by
      simp [checkRateLimit, h, hnotgt, hklt]
    have hlook : Map.lookup (Map.insert rl uid ⟨k + 1, R⟩) uid = some ⟨k + 1, R⟩ :=
      Map.lookup_insert_self ..
    obtain ⟨h1, h2⟩ := ih (Map.insert rl uid ⟨k + 1, R⟩) (k + 1) hlook
      (fun t' ht' => hts t' (List.mem_cons_of_mem _ ht')) (by omega)
      (by simp only [List.length_cons] at hlen; omega)
    refine ⟨?_, ?_⟩
    · simp [runRequests, hstep, h1, List.replicate_succ]
    · simp only [runRequests, hstep]
      simpa [Nat.add_assoc, Nat.add_comm 1 ts.length] using h2

/-- C3: starting with no bucket, of eleven generation checks inside one
60-second window exactly the first ten succeed; the eleventh fails with the
rate-limit error, produces no chunks and leaves the bucket count at ten and
the map unchanged; the first check after the window expires succeeds and
starts a fresh window with count one. -/
theorem rateLimit_fixed_window
    (rl : Map Nat Bucket) (uid t0 t11 tNew : Nat) (ts : List Nat) (chunks : List String)
    (h0 : Map.lookup rl uid = none)
    (hlen : ts.length = 9)
    (hts : ∀ t ∈ ts, t ≤ t0 + 60000)
    (h11 : t11 ≤ t0 + 60000)
    (hNew : tNew > t0 + 60000) :
    (runRequests uid rl (t0 :: ts ++ [t11])).1 = List.replicate 10 true ++ [false] ∧
    Map.lookup (runRequests uid rl (t0 :: ts ++ [t11])).2 uid = some ⟨10, t0 + 60000⟩ ∧
    (runRequests uid rl (t0 :: ts ++ [t11])).2 = (runRequests uid rl (t0 :: ts)).2 ∧
    generateCodeStream t11 (runRequests uid rl (t0 :: ts)).2 uid chunks =
      (Except.error "Rate limit exceeded. Please try again in a minute.",
       (runRequests uid rl (t0 :: ts)).2) ∧
    checkRateLimit tNew (runRequests uid rl (t0 :: ts ++ [t11])).2 uid =
      (true, Map.insert (runRequests uid rl (t0 :: ts ++ [t11])).2 uid ⟨1, tNew + 60000⟩) := by
  have hstep0 : checkRateLimit t0 rl uid = (true, Map.insert rl uid ⟨1, t0 + 60000⟩) := by
    simp [checkRateLimit, h0]
  have hlook1 : Map.lookup (Map.insert rl uid ⟨1, t0 + 60000⟩) uid = some ⟨1, t0 + 60000⟩ :=
    Map.lookup_insert_self ..
  obtain ⟨hruns, hlook10⟩ := runRequests_success uid (t0 + 60000) ts
    (Map.insert rl uid ⟨1, t0 + 60000⟩) 1 hlook1 hts (by omega)
    (by simp [MAX_REQUESTS_PER_MINUTE, hlen])
  have hcheck11 : checkRateLimit t11 (runRequests uid (Map.insert rl uid ⟨1, t0 + 60000⟩) ts).2 uid
      = (false, (runRequests uid (Map.insert rl uid ⟨1, t0 + 60000⟩) ts).2) := by
    have h1 : ¬ t11 > t0 + 60000 := by omega
    simp [checkRateLimit, hlook10, h1, MAX_REQUESTS_PER_MINUTE, hlen]
  have hfull : runRequests uid rl (t0 :: ts ++ [t11]) =
      (true :: ((runRequests uid (Map.insert rl uid ⟨1, t0 + 60000⟩) ts).1 ++ [false]),
       (runRequests uid (Map.insert rl uid ⟨1, t0 + 60000⟩) ts).2) := by
    simp [runRequests, hstep0, runRequests_append, hcheck11]
  have hten : runRequests uid rl (t0 :: ts) =
      (true :: (runRequests uid (Map.insert rl uid ⟨1, t0 + 60000⟩) ts).1,
       (runRequests uid (Map.insert rl uid ⟨1, t0 + 60000⟩) ts).2) := by
    simp [runRequests, hstep0]
  refine ⟨?_, ?_, ?_, ?_, ?_⟩
  · rw [hfull]
    simp [hruns, hlen, List.replicate_succ]
  · rw [hfull]
    simpa [hlen] using hlook10
  · rw [hfull, hten]
  · rw [hten]
    simp [generateCodeStream, hcheck11]
  · rw [hfull]
    have h2 : tNew > t0 + 60000 := hNew
    simp [checkRateLimit, hlook10, h2]

/-- C3 witness: with an empty bucket map, eleven checks of user 1 at time 0
yield ten successes then a refusal; the refused generation call errors with
the map unchanged; a check at 60001 opens a fresh window. -/
theorem rateLimit_fixed_window_witness :
    Map.lookup ([] : Map Nat Bucket) 1 = none ∧
    ((runRequests 1 [] (0 :: List.replicate 9 0 ++ [0])).1
        = List.replicate 10 true ++ [false] ∧
      Map.lookup (runRequests 1 [] (0 :: List.replicate 9 0 ++ [0])).2 1
        = some ⟨10, 0 + 60000⟩ ∧
      (runRequests 1 [] (0 :: List.replicate 9 0 ++ [0])).2
        = (runRequests 1 [] (0 :: List.replicate 9 0)).2 ∧
      generateCodeStream 0 (runRequests 1 [] (0 :: List.replicate 9 0)).2 1 ["x"] =
        (Except.error "Rate limit exceeded. Please try again in a minute.",
         (runRequests 1 [] (0 :: List.replicate 9 0)).2) ∧
      checkRateLimit 60001 (runRequests 1 [] (0 :: List.replicate 9 0 ++ [0])).2 1 =
        (true, Map.insert (runRequests 1 [] (0 :: List.replicate 9 0 ++ [0])).2 1
          ⟨1, 60001 + 60000⟩)) :=
  ⟨rfl, rateLimit_fixed_window [] 1 0 0 60001 (List.replicate 9 0) ["x"] rfl
    (by simp) (by intro t ht; simp at ht; omega) (by omega) (by omega)⟩

/-- C5 counterexample: a request-sync for a document that is neither cached
nor in the store is a hydration failure, yet the handler emits nothing at
all to the requesting connection, against the claim that every hydration
failure reports a NotFound error to the requester. -/
theorem requestSync_hydration_failure_silent :
    Map.lookup emptyState.documentCache "d" = none ∧
    Map.lookup ([] : Map String String) "d" = none ∧
    requestSync [] 0 emptyState 1 "d" = (emptyState, []) :=
  ⟨rfl, rfl, rfl⟩

/-- C5 amended: on hydration failure a send-changes event signals the
document-not-found error to the submitter alone and changes nothing, while
a request-sync aborts silently, emitting no error and creating no cached
state. -/
theorem hydration_failure_behavior
    (store : Map String String) (now : Nat) (s : ServerState)
    (sid : Nat) (docId : String) (c : String)
    (h1 : Map.lookup s.documentCache docId = none)
    (h2 : Map.lookup store docId = none) :
    sendChanges store now s sid docId c
      = (s, [Emit.toSocket sid (OutEvent.errorMsg "Document not found")]) ∧
    requestSync store now s sid docId = (s, []) := by
  constructor
  · simp [sendChanges, getDocumentState, h1, h2]
  · simp [requestSync, getDocumentState, h1, h2]

/-- C5 witness: document e is neither cached in demoState nor stored;
send-changes from socket 7 emits only the error to 7 and leaves the state
intact, request-sync emits nothing. -/
theorem hydration_failure_behavior_witness :
    Map.lookup demoState.documentCache "e" = none ∧
    Map.lookup ([] : Map String String) "e" = none ∧
    sendChanges [] 3 demoState 7 "e" "hi"
      = (demoState, [Emit.toSocket 7 (OutEvent.errorMsg "Document not found")]) ∧
    requestSync [] 3 demoState 7 "e" = (demoState, []) := by
  have h := hydration_failure_behavior [] 3 demoState 7 "e" "hi" (by decide) rfl
  exact ⟨by decide, rfl, h.1, h.2⟩

/-- C6: request-sync is idempotent and pure: two consecutive request-sync
calls with no intervening edits send the caller identical payload lists,
and request-sync never mutates any existing cached document state. -/
theorem requestSync_idempotent_and_pure (store : Map String String) (now1 now2 : Nat)
    (s : ServerState) (sid : Nat) (docId : String) :
    (requestSync store now2 (requestSync store now1 s sid docId).1 sid docId).2
      = (requestSync store now1 s sid docId).2 ∧
    ∀ d st, Map.lookup s.documentCache d = some st →
      Map.lookup (requestSync store now1 s sid docId).1.documentCache d = some st := by
  rcases hc : Map.lookup s.documentCache docId with _ | st
  · rcases hs : Map.lookup store docId with _ | c0
    · constructor
      · simp [requestSync, getDocumentState, hc, hs]
      · intro d st h
        simp [requestSync, getDocumentState, hc, hs, h]
    · have h1 : requestSync store now1 s sid docId =
          ({ s with documentCache := Map.insert s.documentCache docId ⟨c0, now1, 1⟩ },
           [Emit.toSocket sid (OutEvent.documentState c0 1)]) := by
        simp [requestSync, getDocumentState, hc, hs]
      have h2 : Map.lookup (Map.insert s.documentCache docId ⟨c0, now1, 1⟩) docId
          = some ⟨c0, now1, 1⟩ := Map.lookup_insert_self ..
      constructor
      · rw [h1]
        simp [requestSync, getDocumentState, h2]
      · intro d st h
        rw [h1]
        have hne : d ≠ docId := by
          intro he
          rw [he, hc] at h
          cases h
        rw [Map.lookup_insert_ne _ _ hne]
        exact h
  · have h1 : requestSync store now1 s sid docId
        = (s, [Emit.toSocket sid (OutEvent.documentState st.content st.version)]) := by
      simp [requestSync, getDocumentState, hc]
    constructor
    · rw [h1]
      simp [requestSync, getDocumentState, hc]
    · intro d st' h
      rw [h1]
      exact h

/-- C6 witness: two request-sync calls for the cached document d of
demoState emit the same payload, and the cached record survives unchanged. -/
theorem requestSync_idempotent_and_pure_witness :
    ((requestSync [] 2 (requestSync [] 1 demoState 7 "d").1 7 "d").2
      = (requestSync [] 1 demoState 7 "d").2) ∧
    Map.lookup (requestSync [] 1 demoState 7 "d").1.documentCache "d" = some ⟨"", 0, 1⟩ :=
  ⟨(requestSync_idempotent_and_pure [] 1 2 demoState 7 "d").1,
   (requestSync_idempotent_and_pure [] 1 2 demoState 7 "d").2 "d" ⟨"", 0, 1⟩ rfl⟩

/-- C7: the streaming loop of the ai-generate handler runs to stream
exhaustion with no cancellation check, so when the connection disconnects
after the first chunk the server still emits the remaining chunks and the
completion signal to that socket, against the required
cancellation-on-disconnect. -/
theorem aiStream_continues_after_disconnect :
    aiStreamEmitsWithDisconnect 1 ["a", "b", "c"] 1 =
      [Emit.toSocket 1 (OutEvent.aiChunk "a"), Emit.toSocket 1 (OutEvent.aiChunk "b"),
       Emit.toSocket 1 (OutEvent.aiChunk "c"), Emit.toSocket 1 OutEvent.aiComplete] ∧
    (aiStreamEmitsWithDisconnect 1 ["a", "b", "c"] 1).drop 1 =
      [Emit.toSocket 1 (OutEvent.aiChunk "b"), Emit.toSocket 1 (OutEvent.aiChunk "c"),
       Emit.toSocket 1 OutEvent.aiComplete] :=
  ⟨rfl, rfl⟩

/-- C8 counterexample: sockets 1 and 2 are members of the room of document
d but socket 1 has not registered an identity; its cursor-move event is
dropped entirely instead of being relayed to socket 2, against the claim
that every cursor-move from a room member is relayed. -/
theorem cursorMove_without_identity_dropped :
    1 ∈ membersOf cursorCexState "d" ∧ 2 ∈ membersOf cursorCexState "d" ∧
    Map.lookup cursorCexState.userMetadata 1 = none ∧
    cursorMove cursorCexState 1 "d" 0 0 = (cursorCexState, []) := by
  refine ⟨by decide, by decide, rfl, rfl⟩

/-- C8 amended: a cursor-move from a socket with a registered identity is
relayed once to the room excluding the sender, the sender is never among
the targets, every other room member is, and no server state is stored. -/
theorem cursorMove_relay_with_identity (s : ServerState) (sid : Nat) (docId : String)
    (pos sel : Nat) (meta : UserMeta)
    (h : Map.lookup s.userMetadata sid = some meta) :
    cursorMove s sid docId pos sel =
      (s, [Emit.toRoomExcept docId sid
        (OutEvent.cursorUpdate sid meta.username meta.color pos sel)]) ∧
    sid ∉ emitTargets s (Emit.toRoomExcept docId sid
        (OutEvent.cursorUpdate sid meta.username meta.color pos sel)) ∧
    ∀ m, m ∈ membersOf s docId → m ≠ sid →
      m ∈ emitTargets s (Emit.toRoomExcept docId sid
        (OutEvent.cursorUpdate sid meta.username meta.color pos sel)) := by
  refine ⟨by simp [cursorMove, h], ?_, ?_⟩
  · simp [emitTargets, List.mem_filter]
  · intro m hm hne
    simp [emitTargets, List.mem_filter, hm, hne]

/-- C8 witness: socket 7 of demoState has an identity; its cursor payload
is relayed to the room except 7, which excludes 7 and includes member 8. -/
theorem cursorMove_relay_with_identity_witness :
    Map.lookup demoState.userMetadata 7 = some ⟨"alice", "red", "d"⟩ ∧
    cursorMove demoState 7 "d" 3 4 =
      (demoState, [Emit.toRoomExcept "d" 7 (OutEvent.cursorUpdate 7 "alice" "red" 3 4)]) ∧
    7 ∉ emitTargets demoState
      (Emit.toRoomExcept "d" 7 (OutEvent.cursorUpdate 7 "alice" "red" 3 4)) ∧
    8 ∈ emitTargets demoState
      (Emit.toRoomExcept "d" 7 (OutEvent.cursorUpdate 7 "alice" "red" 3 4)) := by
  have h := cursorMove_relay_with_identity demoState 7 "d" 3 4 ⟨"alice", "red", "d"⟩ rfl
  exact ⟨rfl, h.1, h.2.1, h.2.2 8 (by decide) (by decide)⟩

/-- C9: an ai-generate event from a socket with no registered identity is
answered with the authentication error alone; the server state, the
rate-limit map included, is untouched and no chunk is produced. -/
theorem aiGenerate_unauthenticated_rejected (chunks : List String) (now : Nat)
    (s : ServerState) (sid : Nat)
    (h : Map.lookup s.userMetadata sid = none) :
    aiGenerate chunks now s sid
      = (s, [Emit.toSocket sid (OutEvent.aiError "User not authenticated")]) := by
  simp [aiGenerate, h]

/-- C9 witness: socket 9 of demoState has no identity; its generation
request yields only the authentication error and the state is unchanged. -/
theorem aiGenerate_unauthenticated_rejected_witness :
    Map.lookup demoState.userMetadata 9 = none ∧
    aiGenerate ["x"] 0 demoState 9
      = (demoState, [Emit.toSocket 9 (OutEvent.aiError "User not authenticated")]) :=
  ⟨by decide, aiGenerate_unauthenticated_rejected ["x"] 0 demoState 9 (by decide)⟩

/-- Deleting an element from a set list really removes it. -/
theorem not_mem_setDelete (us : List Nat) (x : Nat) : x ∉ setDelete us x := by
  simp [setDelete, List.mem_filter]

/-- After the disconnect removal, no surviving room member list contains
the disconnected socket. -/
theorem lookup_removeFromRooms_not_mem {sid : Nat} {rooms : Map String (List Nat)}
    {d : String} {us : List Nat}
    (h : Map.lookup (removeFromRooms sid rooms) d = some us) : sid ∉ us := by
  induction rooms with
  | nil => cases h
  | cons e rest ih =>
    obtain ⟨d', us'⟩ := e
    by_cases h1 : sid ∈ us'
    · by_cases h2 : setDelete us' sid = []
      · simp only [removeFromRooms, h1, if_true, h2] at h
        exact ih h
      · simp only [removeFromRooms, h1, if_true, h2, if_false] at h
        by_cases hd : d' = d
        · have : setDelete us' sid = us := by simpa [Map.lookup, hd] using h
          exact this ▸ not_mem_setDelete us' sid
        · exact ih (by simpa [Map.lookup, hd] using h)
    · simp only [removeFromRooms, h1, if_false] at h
      by_cases hd : d' = d
      · have : us' = us := by simpa [Map.lookup, hd] using h
        exact this ▸ h1
      · exact ih (by simpa [Map.lookup, hd] using h)

/-- The disconnect removal preserves room keys. -/
theorem keys_removeFromRooms {sid : Nat} {rooms : Map String (List Nat)}
    {e : String × List Nat} (h : e ∈ removeFromRooms sid rooms) :
    e.1 ∈ rooms.map Prod.fst := by
  induction rooms with
  | nil => cases h
  | cons e0 rest ih =>
    obtain ⟨d', us'⟩ := e0
    by_cases h1 : sid ∈ us'
    · by_cases h2 : setDelete us' sid = []
      · simp only [removeFromRooms, h1, if_true, h2] at h
        simp [ih h]
      · simp only [removeFromRooms, h1, if_true, h2, if_false] at h
        rcases List.mem_cons.mp h with h3 | h3
        · simp [h3]
        · simp [ih h3]
    · simp only [removeFromRooms, h1, if_false] at h
      rcases List.mem_cons.mp h with h3 | h3
      · simp [h3]
      · simp [ih h3]

/-- A room whose member set the disconnect empties appears among the
emptied rooms. -/
theorem mem_emptiedRooms {sid : Nat} {rooms : Map String (List Nat)}
    {d : String} {us : List Nat}
    (h : Map.lookup rooms d = some us) (hmem : sid ∈ us)
    (hdel : setDelete us sid = []) : d ∈ emptiedRooms sid rooms := by
  induction rooms with
  | nil => cases h
  | cons e rest ih =>
    obtain ⟨d', us'⟩ := e
    by_cases hd : d' = d
    · subst hd
      have hus : us' = us := by simpa [Map.lookup] using h
      subst hus
      simp [emptiedRooms, hmem, hdel]
    · have h' : Map.lookup rest d = some us := by simpa [Map.lookup, hd] using h
      have hrest := ih h'
      by_cases h1 : sid ∈ us'
      · by_cases h2 : setDelete us' sid = []
        · simp only [emptiedRooms, h1, if_true, h2, if_true]
          exact List.mem_cons_of_mem _ hrest
        · simpa [emptiedRooms, h1, h2] using hrest
      · simpa [emptiedRooms, h1] using hrest

/-- With unique room keys, the room entry of a room that the disconnect
empties is gone afterwards. -/
theorem lookup_removeFromRooms_none {sid : Nat} {rooms : Map String (List Nat)}
    {d : String} {us : List Nat}
    (hnd : (rooms.map Prod.fst).Nodup)
    (h : Map.lookup rooms d = some us) (hmem : sid ∈ us)
    (hdel : setDelete us sid = []) :
    Map.lookup (removeFromRooms sid rooms) d = none := by
  induction rooms with
  | nil => cases h
  | cons e rest ih =>
    obtain ⟨d', us'⟩ := e
    by_cases hd : d' = d
    · subst hd
      have hus : us' = us := by simpa [Map.lookup] using h
      subst hus
      simp only [removeFromRooms, hmem, if_true, hdel]
      refine Map.lookup_eq_none_of_keys ?_
      intro e' he'
      have hk := keys_removeFromRooms he'
      simp only [List.map_cons] at hnd
      have hnotin : d' ∉ rest.map Prod.fst := (List.nodup_cons.mp hnd).1
      intro hne
      exact hnotin (hne ▸ hk)
    · have h' : Map.lookup rest d = some us := by simpa [Map.lookup, hd] using h
      simp only [List.map_cons] at hnd
      have hnd' : (rest.map Prod.fst).Nodup := (List.nodup_cons.mp hnd).2
      have hrest := ih hnd' h'
      by_cases h1 : sid ∈ us'
      · by_cases h2 : setDelete us' sid = []
        · simpa [removeFromRooms, h1, h2] using hrest
        · simpa [removeFromRooms, h1, h2, Map.lookup, hd] using hrest
      · simpa [removeFromRooms, h1, Map.lookup, hd] using hrest

/-- Every bucket surviving a cleanup pass is still inside its window. -/
theorem cleanupRateLimits_sound (now : Nat) (rl : Map Nat Bucket) (k : Nat) (b : Bucket)
    (h : Map.lookup (cleanupRateLimits now rl) k = some b) : ¬ now > b.resetTime := by
  have hm := Map.lookup_mem h
  have h2 := List.mem_filter.mp hm
  simpa using h2.2

/-- C4 counterexample: socket 1 of disconnectCexState holds a rate-limit
bucket; after its disconnect the identity is gone but the bucket is still
present, against the claim that disconnect removes the rate-limit bucket. -/
theorem disconnect_retains_rate_limit_bucket :
    Map.lookup disconnectCexState.rateLimits 1 = some ⟨3, 99⟩ ∧
    Map.lookup (disconnect disconnectCexState 1).1.userMetadata 1 = none ∧
    Map.lookup (disconnect disconnectCexState 1).1.rateLimits 1 = some ⟨3, 99⟩ :=
  ⟨rfl, rfl, rfl⟩

/-- C4 amended: after a disconnect the identity entry and every room
membership of the socket are removed, and when the socket was the last
member of a room the room entry and the cached DocumentState are both
evicted; the rate-limit bucket is NOT removed by the disconnect handler,
which leaves the rateLimits map untouched, and expired buckets disappear
only through the periodic cleanup pass, after which no expired bucket
survives. -/
theorem disconnect_cleanup_behavior (s : ServerState) (sid : Nat)
    (hkeys : (s.documentUsers.map Prod.fst).Nodup) :
    Map.lookup (disconnect s sid).1.userMetadata sid = none ∧
    (∀ d, sid ∉ membersOf (disconnect s sid).1 d) ∧
    (∀ d us, Map.lookup s.documentUsers d = some us → sid ∈ us → setDelete us sid = [] →
      Map.lookup (disconnect s sid).1.documentUsers d = none ∧
      Map.lookup (disconnect s sid).1.documentCache d = none) ∧
    (disconnect s sid).1.rateLimits = s.rateLimits ∧
    (∀ now b, Map.lookup (cleanupRateLimits now (disconnect s sid).1.rateLimits) sid = some b →
      ¬ now > b.resetTime) := by
  refine ⟨Map.lookup_erase_self .., ?_, ?_, rfl, ?_⟩
  · intro d
    rcases hl : Map.lookup (disconnect s sid).1.documentUsers d with _ | us
    · simp [membersOf, hl]
    · have := lookup_removeFromRooms_not_mem (by exact hl)
      simpa [membersOf, hl] using this
  · intro d us h hmem hdel
    constructor
    · exact lookup_removeFromRooms_none hkeys h hmem hdel
    · exact Map.lookup_foldl_erase _ _ (mem_emptiedRooms h hmem hdel)
  · intro now b h
    exact cleanupRateLimits_sound now _ sid b h

/-- C4 witness: disconnecting the sole member 1 of room d removes the
identity, the membership, the room entry and the cached state, and leaves
the rate-limit map exactly as it was. -/
theorem disconnect_cleanup_behavior_witness :
    Map.lookup (disconnect disconnectCexState 1).1.userMetadata 1 = none ∧
    (∀ d, 1 ∉ membersOf (disconnect disconnectCexState 1).1 d) ∧
    (Map.lookup (disconnect disconnectCexState 1).1.documentUsers "d" = none ∧
     Map.lookup (disconnect disconnectCexState 1).1.documentCache "d" = none) ∧
    (disconnect disconnectCexState 1).1.rateLimits = disconnectCexState.rateLimits := by
  have h := disconnect_cleanup_behavior disconnectCexState 1 (by decide)
  exact ⟨h.1, h.2.1, h.2.2.1 "d" [1] rfl (by decide) rfl, h.2.2.2.1⟩

/-- Hydration never touches room membership. -/
theorem getDocumentState_documentUsers (store : Map String String) (now : Nat)
    (s : ServerState) (docId : String) :
    (getDocumentState store now s docId).2.documentUsers = s.documentUsers := by
  rcases h : Map.lookup s.documentCache docId with _ | st
  · rcases h2 : Map.lookup store docId with _ | c
    · simp [getDocumentState, h, h2]
    · simp [getDocumentState, h, h2]
  · simp [getDocumentState, h]

/-- Hydration changes at most the cache entry of the hydrated document. -/
theorem getDocumentState_cache_ne (store : Map String String) (now : Nat)
    (s : ServerState) (docId : String) {d : String} (hne : d ≠ docId) :
    Map.lookup (getDocumentState store now s docId).2.documentCache d
      = Map.lookup s.documentCache d := by
  rcases h : Map.lookup s.documentCache docId with _ | st
  · rcases h2 : Map.lookup store docId with _ | c
    · simp [getDocumentState, h, h2]
    · simp [getDocumentState, h, h2, Map.lookup_insert_ne _ _ hne]
  · simp [getDocumentState, h]

/-- Request-sync never touches room membership. -/
theorem requestSync_documentUsers (store : Map String String) (now : Nat)
    (s : ServerState) (sid : Nat) (docId : String) :
    (requestSync store now s sid docId).1.documentUsers = s.documentUsers := by
  rcases h : (getDocumentState store now s docId).1 with _ | st <;>
    simp [requestSync, h, getDocumentState_documentUsers]

/-- Cursor relay never changes server state. -/
theorem cursorMove_state_eq (s : ServerState) (sid : Nat) (docId : String)
    (pos sel : Nat) : (cursorMove s sid docId pos sel).1 = s := by
  rcases h : Map.lookup s.userMetadata sid with _ | m <;> simp [cursorMove, h]

/-- The generation handler never touches room membership or cache. -/
theorem aiGenerate_users_cache (chunks : List String) (now : Nat)
    (s : ServerState) (sid : Nat) :
    (aiGenerate chunks now s sid).1.documentUsers = s.documentUsers ∧
    (aiGenerate chunks now s sid).1.documentCache = s.documentCache := by
  rcases h : Map.lookup s.userMetadata sid with _ | m <;> simp [aiGenerate, h]

/-- A state with the same room registry inherits the non-empty-rooms
invariant. -/
theorem roomsNonempty_of_users_eq {s s' : ServerState}
    (h : s'.documentUsers = s.documentUsers) (hr : RoomsNonempty s) :
    RoomsNonempty s' := by
  intro d us hm
  exact hr d us (h ▸ hm)

/-- A step that does not change the room registry deletes no room, so the
eviction coupling holds vacuously. -/
theorem roomEvictionCoupled_of_users_eq {s s' : ServerState}
    (h : s'.documentUsers = s.documentUsers) : roomEvictionCoupled s s' := by
  intro d h1 h2
  rw [h] at h2
  exact absurd h2 h1

/-- Adding an element to a set list never yields the empty list. -/
theorem setAdd_ne_nil (us : List Nat) (x : Nat) : setAdd us x ≠ [] := by
  by_cases h : x ∈ us
  · simp only [setAdd, h, if_true]
    intro he
    rw [he] at h
    cases h
  · simp [setAdd, h]

/-- The implicit leave inside join-document preserves the non-empty-rooms
invariant. -/
theorem roomsNonempty_implicitLeave (s : ServerState) (sid : Nat)
    (h : RoomsNonempty s) : RoomsNonempty (implicitLeave s sid) := by
  rcases h1 : Map.lookup s.socketRooms sid with _ | r
  · have he : implicitLeave s sid = s := by simp [implicitLeave, h1]
    rw [he]
    exact h
  · rcases h2 : Map.lookup s.documentUsers r with _ | us
    · have he : implicitLeave s sid = s := by simp [implicitLeave, h1, h2]
      rw [he]
      exact h
    · by_cases h3 : setDelete us sid = []
      · have he : implicitLeave s sid =
            { s with documentUsers := Map.erase s.documentUsers r,
                     documentCache := Map.erase s.documentCache r } := by
          simp [implicitLeave, h1, h2, h3]
        rw [he]
        intro d us' hm
        exact h d us' (Map.mem_of_mem_erase hm)
      · have he : implicitLeave s sid =
            { s with documentUsers := Map.insert s.documentUsers r (setDelete us sid) } := by
          simp [implicitLeave, h1, h2, h3]
        rw [he]
        intro d us' hm
        rcases Map.mem_insert hm with hm1 | hm1
        · exact h d us' hm1
        · have hsnd : us' = setDelete us sid := congrArg Prod.snd hm1
          rw [hsnd]
          exact h3

/-- Membership after join-document: the implicit leave result with the
joining socket added to the target room. -/
theorem joinDocument_documentUsers (store : Map String String) (now : Nat)
    (s : ServerState) (sid : Nat) (docId : String) :
    (joinDocument store now s sid docId).1.documentUsers =
      Map.insert (implicitLeave s sid).documentUsers docId
        (setAdd ((Map.lookup (implicitLeave s sid).documentUsers docId).getD []) sid) := by
  simp [joinDocument, getDocumentState_documentUsers]

/-- Cache lookups of other documents after join-document see the implicit
leave result. -/
theorem joinDocument_cache_ne (store : Map String String) (now : Nat)
    (s : ServerState) (sid : Nat) (docId : String) {d : String} (hd : d ≠ docId) :
    Map.lookup (joinDocument store now s sid docId).1.documentCache d
      = Map.lookup (implicitLeave s sid).documentCache d := by
  simp only [joinDocument]
  rw [getDocumentState_cache_ne _ _ _ _ hd]

/-- Join-document preserves the non-empty-rooms invariant. -/
theorem roomsNonempty_joinDocument (store : Map String String) (now : Nat)
    (s : ServerState) (sid : Nat) (docId : String) (h : RoomsNonempty s) :
    RoomsNonempty (joinDocument store now s sid docId).1 := by
  intro d us hm
  rw [joinDocument_documentUsers] at hm
  rcases Map.mem_insert hm with h1 | h1
  · exact roomsNonempty_implicitLeave s sid h d us h1
  · have hsnd : us = setAdd ((Map.lookup (implicitLeave s sid).documentUsers docId).getD []) sid :=
      congrArg Prod.snd h1
    rw [hsnd]
    exact setAdd_ne_nil _ _

/-- Join-document couples room deletion with cache eviction. -/
theorem coupling_joinDocument (store : Map String String) (now : Nat)
    (s : ServerState) (sid : Nat) (docId : String) :
    roomEvictionCoupled s (joinDocument store now s sid docId).1 := by
  intro d hne hnone
  rw [joinDocument_documentUsers] at hnone
  by_cases hd : d = docId
  · subst hd
    rw [Map.lookup_insert_self] at hnone
    cases hnone
  · rw [Map.lookup_insert_ne _ _ hd] at hnone
    rcases h1 : Map.lookup s.socketRooms sid with _ | r
    · have he : implicitLeave s sid = s := by simp [implicitLeave, h1]
      rw [he] at hnone
      exact absurd hnone hne
    · rcases h2 : Map.lookup s.documentUsers r with _ | us
      · have he : implicitLeave s sid = s := by simp [implicitLeave, h1, h2]
        rw [he] at hnone
        exact absurd hnone hne
      · by_cases h3 : setDelete us sid = []
        · have he : implicitLeave s sid =
              { s with documentUsers := Map.erase s.documentUsers r,
                       documentCache := Map.erase s.documentCache r } := by
            simp [implicitLeave, h1, h2, h3]
          rw [he] at hnone
          by_cases hr : d = r
          · subst hr
            rw [joinDocument_cache_ne _ _ _ _ _ hd, he]
            exact Map.lookup_erase_self ..
          · rw [Map.lookup_erase_ne _ hr] at hnone
            exact absurd hnone hne
        · have he : implicitLeave s sid =
              { s with documentUsers := Map.insert s.documentUsers r (setDelete us sid) } := by
            simp [implicitLeave, h1, h2, h3]
          rw [he] at hnone
          by_cases hr : d = r
          · subst hr
            rw [Map.lookup_insert_self] at hnone
            cases hnone
          · rw [Map.lookup_insert_ne _ _ hr] at hnone
            exact absurd hnone hne

/-- Leave-document preserves the non-empty-rooms invariant. -/
theorem roomsNonempty_leaveDocument (s : ServerState) (sid : Nat) (docId : String)
    (h : RoomsNonempty s) : RoomsNonempty (leaveDocument s sid docId).1 := by
  rcases h1 : Map.lookup s.documentUsers docId with _ | us
  · have he : (leaveDocument s sid docId).1.documentUsers = s.documentUsers := by
      simp [leaveDocument, h1]
    exact roomsNonempty_of_users_eq he h
  · by_cases h3 : setDelete us sid = []
    · have he : (leaveDocument s sid docId).1.documentUsers
          = Map.erase s.documentUsers docId := by
        simp [leaveDocument, h1, h3]
      intro d us' hm
      rw [he] at hm
      exact h d us' (Map.mem_of_mem_erase hm)
    · have he : (leaveDocument s sid docId).1.documentUsers
          = Map.insert s.documentUsers docId (setDelete us sid) := by
        simp [leaveDocument, h1, h3]
      intro d us' hm
      rw [he] at hm
      rcases Map.mem_insert hm with hm1 | hm1
      · exact h d us' hm1
      · have hsnd : us' = setDelete us sid := congrArg Prod.snd hm1
        rw [hsnd]
        exact h3

/-- Leave-document couples room deletion with cache eviction. -/
theorem coupling_leaveDocument (s : ServerState) (sid : Nat) (docId : String) :
    roomEvictionCoupled s (leaveDocument s sid docId).1 := by
  intro d hne hnone
  rcases h1 : Map.lookup s.documentUsers docId with _ | us
  · have he : (leaveDocument s sid docId).1.documentUsers = s.documentUsers := by
      simp [leaveDocument, h1]
    rw [he] at hnone
    exact absurd hnone hne
  · by_cases h3 : setDelete us sid = []
    · have heU : (leaveDocument s sid docId).1.documentUsers
          = Map.erase s.documentUsers docId := by
        simp [leaveDocument, h1, h3]
      have heC : (leaveDocument s sid docId).1.documentCache
          = Map.erase s.documentCache docId := by
        simp [leaveDocument, h1, h3]
      rw [heU] at hnone
      by_cases hd : d = docId
      · subst hd
        rw [heC]
        exact Map.lookup_erase_self ..
      · rw [Map.lookup_erase_ne _ hd] at hnone
        exact absurd hnone hne
    · have heU : (leaveDocument s sid docId).1.documentUsers
          = Map.insert s.documentUsers docId (setDelete us sid) := by
        simp [leaveDocument, h1, h3]
      rw [heU] at hnone
      by_cases hd : d = docId
      · subst hd
        rw [Map.lookup_insert_self] at hnone
        cases hnone
      · rw [Map.lookup_insert_ne _ _ hd] at hnone
        exact absurd hnone hne

/-- The disconnect removal preserves non-empty member lists. -/
theorem roomsNonempty_removeFromRooms {sid : Nat} {rooms : Map String (List Nat)}
    (h : ∀ d us, (d, us) ∈ rooms → us ≠ []) :
    ∀ d us, (d, us) ∈ removeFromRooms sid rooms → us ≠ [] := by
  induction rooms with
  | nil =>
    intro d us hm
    cases hm
  | cons e rest ih =>
    obtain ⟨d', us'⟩ := e
    intro d us hm
    have hrest : ∀ d us, (d, us) ∈ rest → us ≠ [] :=
      fun d us hmm => h d us (List.mem_cons_of_mem _ hmm)
    by_cases h1 : sid ∈ us'
    · by_cases h2 : setDelete us' sid = []
      · simp only [removeFromRooms, h1, if_true, h2, if_true] at hm
        exact ih hrest d us hm
      · simp only [removeFromRooms, h1, if_true, h2, if_false] at hm
        rcases List.mem_cons.mp hm with h3 | h3
        · have hsnd : us = setDelete us' sid := congrArg Prod.snd h3
          rw [hsnd]
          exact h2
        · exact ih hrest d us h3
    · simp only [removeFromRooms, h1, if_false] at hm
      rcases List.mem_cons.mp hm with h3 | h3
      · have hsnd : us = us' := congrArg Prod.snd h3
        rw [hsnd]
        exact h d' us' (List.mem_cons_self _ _)
      · exact ih hrest d us h3

/-- A tracked room whose entry disappears during disconnect was emptied. -/
theorem emptied_of_removeFromRooms_none {sid : Nat} {rooms : Map String (List Nat)}
    {d : String} {us : List Nat}
    (h : Map.lookup rooms d = some us)
    (h2 : Map.lookup (removeFromRooms sid rooms) d = none) :
    d ∈ emptiedRooms sid rooms := by
  induction rooms with
  | nil => cases h
  | cons e rest ih =>
    obtain ⟨d', us'⟩ := e
    by_cases hd : d' = d
    · subst hd
      have hus : us' = us := by simpa [Map.lookup] using h
      subst hus
      by_cases h1 : sid ∈ us'
      · by_cases h3 : setDelete us' sid = []
        · simp [emptiedRooms, h1, h3]
        · simp [removeFromRooms, h1, h3, Map.lookup] at h2
      · simp [removeFromRooms, h1, Map.lookup] at h2
    · have h' : Map.lookup rest d = some us := by simpa [Map.lookup, hd] using h
      have h2' : Map.lookup (removeFromRooms sid rest) d = none := by
        by_cases h1 : sid ∈ us'
        · by_cases h3 : setDelete us' sid = []
          · simpa [removeFromRooms, h1, h3] using h2
          · simpa [removeFromRooms, h1, h3, Map.lookup, hd] using h2
        · simpa [removeFromRooms, h1, Map.lookup, hd] using h2
      have hrest := ih h' h2'
      by_cases h1 : sid ∈ us'
      · by_cases h3 : setDelete us' sid = []
        · simp only [emptiedRooms, h1, if_true, h3, if_true]
          exact List.mem_cons_of_mem _ hrest
        · simpa [emptiedRooms, h1, h3] using hrest
      · simpa [emptiedRooms, h1] using hrest

/-- Disconnect preserves the non-empty-rooms invariant. -/
theorem roomsNonempty_disconnect (s : ServerState) (sid : Nat)
    (h : RoomsNonempty s) : RoomsNonempty (disconnect s sid).1 := by
  intro d us hm
  exact roomsNonempty_removeFromRooms h d us hm

/-- Disconnect couples room deletion with cache eviction. -/
theorem coupling_disconnect (s : ServerState) (sid : Nat) :
    roomEvictionCoupled s (disconnect s sid).1 := by
  intro d hne hnone
  rcases hl : Map.lookup s.documentUsers d with _ | us
  · exact absurd hl hne
  · exact Map.lookup_foldl_erase _ _ (emptied_of_removeFromRooms_none hl hnone)

/-- C10: every gateway step preserves the invariant that each room entry
of the registry has a non-empty member set, and any step that deletes a
room entry evicts the cached DocumentState of that document in the same
step. -/
theorem step_preserves_room_registry_invariant (store : Map String String)
    (now : Nat) (s : ServerState) (e : InEvent) (h : RoomsNonempty s) :
    RoomsNonempty (step store now s e).1 ∧ roomEvictionCoupled s (step store now s e).1 := by
  cases e with
  | joinDocument sid d =>
    exact ⟨roomsNonempty_joinDocument store now s sid d h, coupling_joinDocument store now s sid d⟩
  | leaveDocument sid d =>
    exact ⟨roomsNonempty_leaveDocument s sid d h, coupling_leaveDocument s sid d⟩
  | sendChanges sid d c =>
    exact ⟨roomsNonempty_of_users_eq (sendChanges_documentUsers store now s sid d c) h,
      roomEvictionCoupled_of_users_eq (sendChanges_documentUsers store now s sid d c)⟩
  | requestSync sid d =>
    exact ⟨roomsNonempty_of_users_eq (requestSync_documentUsers store now s sid d) h,
      roomEvictionCoupled_of_users_eq (requestSync_documentUsers store now s sid d)⟩
  | setUserIdentity sid d u c =>
    exact ⟨roomsNonempty_of_users_eq rfl h, roomEvictionCoupled_of_users_eq rfl⟩
  | cursorMove sid d p sel =>
    have he : (cursorMove s sid d p sel).1.documentUsers = s.documentUsers :=
      congrArg ServerState.documentUsers (cursorMove_state_eq s sid d p sel)
    exact ⟨roomsNonempty_of_users_eq he h, roomEvictionCoupled_of_users_eq he⟩
  | aiGenerate sid chunks =>
    exact ⟨roomsNonempty_of_users_eq (aiGenerate_users_cache chunks now s sid).1 h,
      roomEvictionCoupled_of_users_eq (aiGenerate_users_cache chunks now s sid).1⟩
  | disconnect sid =>
    exact ⟨roomsNonempty_disconnect s sid h, coupling_disconnect s sid⟩

/-- C10 witness: a disconnect of the sole member of room d in demoState
preserves the invariant and the eviction coupling. -/
theorem step_preserves_room_registry_invariant_witness :
    RoomsNonempty (step [] 0 demoState (InEvent.disconnect 7)).1 ∧
    roomEvictionCoupled demoState (step [] 0 demoState (InEvent.disconnect 7)).1 :=
  step_preserves_room_registry_invariant [] 0 demoState (InEvent.disconnect 7)
    (by
      intro d us hm
      rcases List.mem_cons.mp hm with h1 | h1
      · have hsnd : us = [7, 8] := congrArg Prod.snd h1
        rw [hsnd]
        simp
      · cases h1)

end Codex
